import Mathlib

/-!
Verification of the request dispatcher and static responder of
`src/userfolder/server.ts` (the `for await` request loop).

The loop is embedded as a pure function `handle` from the working
directory, a filesystem model, and a request to the outcome of one loop
iteration: the (at most one) response sent via `req.respond`, and the
list of raw path strings passed to `serveFile`.

`serveFile` itself is an external Deno standard-library import whose
source is not part of the repository; it is modelled from the spec
(sections 4.1 and 7): an existing file is served as a 200 response with
its exact bytes, an absent file is surfaced as 404, and any other
filesystem error as 500.  The operating system's resolution of a path
string ("." / ".." / empty segments) is likewise modelled from the
spec's notion of a path escaping the static root.
-/

namespace StaticServer

/-- A file body, as a list of bytes. -/
abbrev Bytes := List Nat

/-- An inbound HTTP request as seen by the request loop of
`src/userfolder/server.ts`: a method string and the raw URL string. -/
structure Request where
  method : String
  url : String
deriving DecidableEq

/-- An HTTP response: a status code and a body. -/
structure Response where
  status : Nat
  body : Bytes
deriving DecidableEq

/-- Filesystem read errors, split as the spec's failure semantics splits
them: absence of the file versus any other read error. -/
inductive FsError where
  | notFound
  | ioError
deriving DecidableEq

/-- Modelled from the spec: the filesystem visible to the server, a map
from resolved absolute paths — given as lists of path segments — to file
contents or a read error. -/
abbrev FileSystem := List (List Char) → Except FsError Bytes

/-- POSIX path segmentation: split a character list on the slash
character.  `splitSlash [] = [[]]`, matching the single empty segment of
the empty string. -/
def splitSlash : List Char → List (List Char)
  | [] => [[]]
  | c :: cs =>
    match splitSlash cs with
    | [] => [[]]
    | s :: rest => if c = '/' then [] :: s :: rest else (c :: s) :: rest

/-- Modelled from the spec: one step of operating-system path resolution
over a reversed segment stack.  Empty and `.` segments are skipped, `..`
pops the last segment (staying put at the root), anything else is pushed. -/
def step (stack : List (List Char)) (seg : List Char) : List (List Char) :=
  if seg = [] ∨ seg = ['.'] then stack
  else if seg = ['.', '.'] then stack.tail
  else seg :: stack

/-- Modelled from the spec: the absolute path, as a segment list, that
the operating system resolves a path string to. -/
def resolvePath (s : String) : List (List Char) :=
  ((splitSlash s.data).foldl step []).reverse

/-- A plain path segment: non-empty and neither `.` nor `..`. -/
def plainB (seg : List Char) : Bool :=
  decide (seg ≠ [] ∧ seg ≠ ['.'] ∧ seg ≠ ['.', '.'])

/-- Every segment of the list is plain. -/
def allPlain (segs : List (List Char)) : Bool := segs.all plainB

/-- Modelled from the spec: the external `serveFile` of the Deno
standard library (imported by URL in `server.ts`, source not in the
repository), with the spec's failure semantics folded in at the
dispatcher boundary: an existing file yields a 200 response carrying the
file's exact bytes, an absent file yields 404, any other filesystem
error yields 500.  The path string is resolved by the operating system
before the lookup. -/
def serveFile (fs : FileSystem) (path : String) : Response :=
  match fs (resolvePath path) with
  | .ok b => { status := 200, body := b }
  | .error .notFound => { status := 404, body := [] }
  | .error .ioError => { status := 500, body := [] }

/-- The outcome of one iteration of the request loop: the response passed
to `req.respond`, if any, and the raw path strings passed to `serveFile`. -/
structure HandlerResult where
  response : Option Response
  reads : List String
deriving DecidableEq

/-- The body of the `for await` request loop of `src/userfolder/server.ts`,
branch for branch:

* `GET /` reads `` `${Deno.cwd()}/static/index.html` `` and responds;
* `GET /ws` does nothing (its body is entirely commented out);
* `GET /favicon.ico` does nothing;
* everything else reads `` `${Deno.cwd()}/static/${req.url}` `` and responds. -/
def handle (cwd : String) (fs : FileSystem) (req : Request) : HandlerResult :=
  if req.method = "GET" ∧ req.url = "/" then
    { response := some (serveFile fs (cwd ++ "/static/index.html")),
      reads := [cwd ++ "/static/index.html"] }
  else if req.method = "GET" ∧ req.url = "/ws" then
    { response := none, reads := [] }
  else if req.method = "GET" ∧ req.url = "/favicon.ico" then
    { response := none, reads := [] }
  else
    { response := some (serveFile fs (cwd ++ "/static/" ++ req.url)),
      reads := [cwd ++ "/static/" ++ req.url] }

/-- A route rule: a predicate over the request paired with the action run
when the predicate is the first to match. -/
abbrev RouteRule :=
  (Request → Bool) × (String → FileSystem → Request → HandlerResult)

/-- The first route rule: `GET /` serves the root document. -/
def ruleRoot : RouteRule :=
  (fun r => r.method == "GET" && r.url == "/",
   fun cwd fs _ =>
     { response := some (serveFile fs (cwd ++ "/static/index.html")),
       reads := [cwd ++ "/static/index.html"] })

/-- The second route rule: `GET /ws` does nothing. -/
def ruleWs : RouteRule :=
  (fun r => r.method == "GET" && r.url == "/ws",
   fun _ _ _ => { response := none, reads := [] })

/-- The third route rule: `GET /favicon.ico` does nothing. -/
def ruleFavicon : RouteRule :=
  (fun r => r.method == "GET" && r.url == "/favicon.ico",
   fun _ _ _ => { response := none, reads := [] })

/-- The fourth route rule: the catch-all `else` branch serving the raw
concatenated path. -/
def ruleFallback : RouteRule :=
  (fun _ => true,
   fun cwd fs req =>
     { response := some (serveFile fs (cwd ++ "/static/" ++ req.url)),
       reads := [cwd ++ "/static/" ++ req.url] })

/-- The four route rules of the request loop, in the source's priority
order; the last rule is the catch-all `else` branch. -/
def routes : List RouteRule := [ruleRoot, ruleWs, ruleFavicon, ruleFallback]

/-- The `for await` loop over a stream of inbound requests: each request
is handled by the loop body in order; no state crosses iterations. -/
def serverLoop (cwd : String) (fs : FileSystem) : List Request → List HandlerResult
  | [] => []
  | r :: rs => handle cwd fs r :: serverLoop cwd fs rs

/-- A filesystem with no files at all: every read fails with `notFound`. -/
def fsAbsent : FileSystem := fun _ => .error .notFound

/-- A filesystem whose only file is `/app/secret.txt` — outside the
static root `/app/static`. -/
def fsSecret : FileSystem := fun p =>
  if p = ["app".data, "secret.txt".data] then .ok [42] else .error .notFound

/-- A filesystem whose only file is `/app/static/index.html`. -/
def fsIndexOnly : FileSystem := fun p =>
  if p = ["app".data, "static".data, "index.html".data] then .ok [60, 104]
  else .error .notFound

/-- A filesystem whose only file is `/app/static/main.js`. -/
def fsMain : FileSystem := fun p =>
  if p = ["app".data, "static".data, "main.js".data] then .ok [99, 1]
  else .error .notFound

/-- A filesystem whose only file is `/app/static/ws`. -/
def fsWsFile : FileSystem := fun p =>
  if p = ["app".data, "static".data, "ws".data] then .ok [1, 2, 3]
  else .error .notFound

/-- A second filesystem whose only file is `/app/static/ws`, with a
different body. -/
def fsWsFile9 : FileSystem := fun p =>
  if p = ["app".data, "static".data, "ws".data] then .ok [9, 9]
  else .error .notFound

/-- `splitSlash` always yields at least one segment. -/
lemma splitSlash_ne_nil (l : List Char) : splitSlash l ≠ [] := by
  cases l with
  | nil => simp [splitSlash]
  | cons c cs =>
    cases h : splitSlash cs with
    | nil => simp [splitSlash, h]
    | cons s rest =>
      simp only [splitSlash, h]
      split <;> simp

/-- Splitting on a slash concatenates the splits of the two sides. -/
lemma splitSlash_append (a b : List Char) :
    splitSlash (a ++ '/' :: b) = splitSlash a ++ splitSlash b := by
  induction a with
  | nil =>
    cases h : splitSlash b with
    | nil => exact absurd h (splitSlash_ne_nil b)
    | cons s rest => simp [splitSlash, h]
  | cons c cs ih =>
    obtain ⟨s₀, r₀, h₀⟩ : ∃ s r, splitSlash cs = s :: r := by
      cases h : splitSlash cs with
      | nil => exact absurd h (splitSlash_ne_nil cs)
      | cons s r => exact ⟨s, r, rfl⟩
    have hl : splitSlash (cs ++ '/' :: b) = s₀ :: (r₀ ++ splitSlash b) := by
      rw [ih, h₀]; rfl
    by_cases hc : c = '/'
    · subst hc
      simp [splitSlash, hl, h₀]
    · simp [splitSlash, hl, h₀, hc]

/-- A leading slash contributes one empty segment. -/
lemma splitSlash_cons_slash (b : List Char) :
    splitSlash ('/' :: b) = [] :: splitSlash b := by
  have h := splitSlash_append [] b
  simpa [splitSlash] using h

/-- Resolution skips an empty segment. -/
lemma step_empty_seg (S : List (List Char)) : step S [] = S := by
  simp [step]

/-- Resolution pushes a plain segment. -/
lemma step_plain (S : List (List Char)) (x : List Char) (h : plainB x = true) :
    step S x = x :: S := by
  have h' := of_decide_eq_true h
  obtain ⟨h1, h2, h3⟩ := h'
  unfold step
  rw [if_neg (by simp [h1, h2]), if_neg h3]

/-- Folding the resolution step over plain segments pushes them in order. -/
lemma foldl_step_plain (P : List (List Char)) (S : List (List Char))
    (h : allPlain P = true) : P.foldl step S = P.reverse ++ S := by
  induction P generalizing S with
  | nil => simp
  | cons x xs ih =>
    rw [allPlain, List.all_cons, Bool.and_eq_true] at h
    rw [List.foldl_cons, step_plain S x h.1, ih (x :: S) h.2]
    simp

/-- Resolving the path the root branch builds appends the two literal
segments `static` and `index.html` to the resolved working directory. -/
lemma resolvePath_index (cwd : String) :
    resolvePath (cwd ++ "/static/index.html") =
      resolvePath cwd ++ ["static".data, "index.html".data] := by
  have hdata : (cwd ++ "/static/index.html").data
      = cwd.data ++ '/' :: ("static".data ++ '/' :: "index.html".data) := by
    rw [String.data_append]; rfl
  unfold resolvePath
  rw [hdata, splitSlash_append, splitSlash_append, List.foldl_append]
  have hst : splitSlash "static".data = ["static".data] := by decide
  have hih : splitSlash "index.html".data = ["index.html".data] := by decide
  rw [hst, hih, List.foldl_append]
  rw [List.foldl_cons, List.foldl_nil, List.foldl_cons, List.foldl_nil]
  rw [step_plain _ _ (by decide), step_plain _ _ (by decide)]
  simp

/-- Resolving the path the fallback branch builds from a URL `/rest`
whose remainder splits into plain segments appends the literal segment
`static` and those segments to the resolved working directory. -/
lemma resolvePath_fallback (cwd u : String) (rest : List Char)
    (hu : u.data = '/' :: rest) (hplain : allPlain (splitSlash rest) = true) :
    resolvePath (cwd ++ "/static/" ++ u) =
      resolvePath cwd ++ ["static".data] ++ splitSlash rest := by
  have hdata : (cwd ++ "/static/" ++ u).data
      = cwd.data ++ '/' :: ("static".data ++ '/' :: ('/' :: rest)) := by
    rw [String.data_append, String.data_append, hu]
    simp
  unfold resolvePath
  rw [hdata, splitSlash_append, splitSlash_append, splitSlash_cons_slash]
  have hst : splitSlash "static".data = ["static".data] := by decide
  rw [hst, List.foldl_append, List.singleton_append]
  rw [List.foldl_cons, List.foldl_cons]
  rw [step_empty_seg, step_plain _ _ (by decide)]
  rw [foldl_step_plain _ _ hplain]
  simp

/-- An existing file is served as a 200 response with its bytes. -/
lemma serveFile_ok (fs : FileSystem) (path : String) (b : Bytes)
    (h : fs (resolvePath path) = .ok b) :
    serveFile fs path = { status := 200, body := b } := by
  unfold serveFile; rw [h]

/-- An absent file is surfaced as a 404 response. -/
lemma serveFile_notFound (fs : FileSystem) (path : String)
    (h : fs (resolvePath path) = .error .notFound) :
    serveFile fs path = { status := 404, body := [] } := by
  unfold serveFile; rw [h]

/-- A request that matches none of the three specific rules is handled by
the fallback branch on the raw concatenated path. -/
lemma handle_fallback (cwd : String) (fs : FileSystem) (req : Request)
    (h1 : ¬(req.method = "GET" ∧ req.url = "/"))
    (h2 : ¬(req.method = "GET" ∧ req.url = "/ws"))
    (h3 : ¬(req.method = "GET" ∧ req.url = "/favicon.ico")) :
    handle cwd fs req =
      { response := some (serveFile fs (cwd ++ "/static/" ++ req.url)),
        reads := [cwd ++ "/static/" ++ req.url] } := by
  unfold handle
  rw [if_neg h1, if_neg h2, if_neg h3]

/-- C1: the dispatcher applies no traversal guard.  With the working
directory `/app` and a file `/app/secret.txt` outside the static root
`/app/static`, the request `GET /../secret.txt` is passed verbatim to the
file-serving action, the path it reads resolves to `/app/secret.txt` —
whose first two segments are not those of the static root — and the
secret file's bytes are served with status 200 instead of an
`InvalidPath` failure. -/
theorem c1_traversal_escapes_root :
    (handle "/app" fsSecret ⟨"GET", "/../secret.txt"⟩).response
        = some { status := 200, body := [42] } ∧
    (handle "/app" fsSecret ⟨"GET", "/../secret.txt"⟩).reads
        = ["/app/static//../secret.txt"] ∧
    resolvePath "/app/static//../secret.txt" = ["app".data, "secret.txt".data] ∧
    (resolvePath "/app/static//../secret.txt").take 2 ≠ ["app".data, "static".data] := by
  decide

/-- C2 (as stated, refuted): a `GET` request for a path with no file
under the static root does not always get a 404 response — `GET
/favicon.ico` on an empty filesystem produces no response at all. -/
theorem c2_counterexample :
    (handle "/home" fsAbsent ⟨"GET", "/favicon.ico"⟩).response = none ∧
    (none : Option Response) ≠ some { status := 404, body := [] } := by
  decide

/-- C2 (amended): for every `GET` request whose URL is none of `/`,
`/ws`, `/favicon.ico`, if the file at the resolved static path is absent
the dispatcher responds 404 — never 500 and never a crash, under the
spec's model of `serveFile`. -/
theorem c2_missing_file_404 (cwd : String) (fs : FileSystem) (req : Request)
    (_hm : req.method = "GET")
    (h1 : req.url ≠ "/") (h2 : req.url ≠ "/ws") (h3 : req.url ≠ "/favicon.ico")
    (habs : fs (resolvePath (cwd ++ "/static/" ++ req.url)) = .error .notFound) :
    (handle cwd fs req).response = some { status := 404, body := [] } := by
  rw [handle_fallback cwd fs req (fun h => h1 h.2) (fun h => h2 h.2) (fun h => h3 h.2)]
  simp [serveFile_notFound fs _ habs]

/-- C2 witness: `GET /nope.js` on an empty filesystem yields 404. -/
theorem c2_missing_file_404_witness :
    fsAbsent (resolvePath ("/app" ++ "/static/" ++ "/nope.js")) = .error .notFound ∧
    (handle "/app" fsAbsent ⟨"GET", "/nope.js"⟩).response
      = some { status := 404, body := [] } :=
  ⟨rfl, c2_missing_file_404 "/app" fsAbsent ⟨"GET", "/nope.js"⟩ rfl
    (by decide) (by decide) (by decide) rfl⟩

/-- C3 (as stated, refuted): `GET /favicon.ico` is not answered with a
success status — the branch sends no response at all. -/
theorem c3_counterexample :
    (handle "/app" fsAbsent ⟨"GET", "/favicon.ico"⟩).response = none ∧
    (none : Option Response) ≠ some { status := 200, body := [] } ∧
    (none : Option Response) ≠ some { status := 204, body := [] } := by
  decide

/-- C3 (amended): for every working directory and filesystem, `GET
/favicon.ico` performs no filesystem read and sends no response: the
branch is a pure no-op. -/
theorem c3_favicon_noop (cwd : String) (fs : FileSystem) :
    handle cwd fs ⟨"GET", "/favicon.ico"⟩ = { response := none, reads := [] } := by
  unfold handle
  rw [if_neg (fun h => absurd h.2 (by decide)), if_neg (fun h => absurd h.2 (by decide)),
    if_pos ⟨rfl, rfl⟩]

/-- C9 (as stated, refuted): the file named `ws` under the static root
can be served — the URL `/./ws` reaches the fallback branch and resolves
to it, so `GET /./ws` returns its bytes with status 200. -/
theorem c9_counterexample :
    fsWsFile9 (resolvePath "/app" ++ ["static".data] ++ splitSlash "ws".data)
        = .ok [9, 9] ∧
    (handle "/app" fsWsFile9 ⟨"GET", "/./ws"⟩).response
        = some { status := 200, body := [9, 9] } :=
  ⟨rfl, rfl⟩

/-- C9 (amended): for every working directory and filesystem, `GET /ws`
executes no action at all — no filesystem read and no response; a
request whose URL is exactly `/ws` never serves a file (though other
URLs resolving to the same file can). -/
theorem c9_ws_noop (cwd : String) (fs : FileSystem) :
    handle cwd fs ⟨"GET", "/ws"⟩ = { response := none, reads := [] } := by
  unfold handle
  rw [if_neg (fun h => absurd h.2 (by decide)), if_pos ⟨rfl, rfl⟩]

/-- C4 (as stated, refuted): a file existing at `root/p` is not always
served by `GET /p` — with a file at `/app/static/ws`, the request `GET
/ws` produces no response at all instead of the file's bytes. -/
theorem c4_counterexample :
    fsWsFile (resolvePath "/app" ++ ["static".data] ++ splitSlash "ws".data)
        = .ok [1, 2, 3] ∧
    (handle "/app" fsWsFile ⟨"GET", "/ws"⟩).response = none ∧
    (none : Option Response) ≠ some { status := 200, body := [1, 2, 3] } :=
  ⟨rfl, rfl, by decide⟩

/-- C4 (amended): for every URL `/p` whose remainder `p` splits into
plain segments and is neither `ws` nor `favicon.ico`, if the filesystem
holds a file with body `b` at the static root extended by `p`'s
segments, then `GET /p` responds 200 with exactly `b`, reading exactly
the concatenated path. -/
theorem c4_existing_file_200 (cwd : String) (fs : FileSystem) (u : String)
    (rest : List Char) (b : Bytes)
    (hu : u.data = '/' :: rest)
    (hplain : allPlain (splitSlash rest) = true)
    (hws : rest ≠ "ws".data) (hfav : rest ≠ "favicon.ico".data)
    (hfile : fs (resolvePath cwd ++ ["static".data] ++ splitSlash rest) = .ok b) :
    handle cwd fs ⟨"GET", u⟩ =
      { response := some { status := 200, body := b },
        reads := [cwd ++ "/static/" ++ u] } := by
  have hrest : rest ≠ [] := by
    intro h
    subst h
    simp [allPlain, splitSlash, plainB] at hplain
  have h1 : u ≠ "/" := by
    intro h
    apply hrest
    have hd := congrArg String.data h
    rw [hu, show ("/" : String).data = '/' :: ([] : List Char) from rfl] at hd
    exact (List.cons.injEq _ _ _ _).mp hd |>.2
  have h2 : u ≠ "/ws" := by
    intro h
    apply hws
    have hd := congrArg String.data h
    rw [hu, show ("/ws" : String).data = '/' :: "ws".data from rfl] at hd
    exact (List.cons.injEq _ _ _ _).mp hd |>.2
  have h3 : u ≠ "/favicon.ico" := by
    intro h
    apply hfav
    have hd := congrArg String.data h
    rw [hu, show ("/favicon.ico" : String).data = '/' :: "favicon.ico".data from rfl] at hd
    exact (List.cons.injEq _ _ _ _).mp hd |>.2
  rw [handle_fallback cwd fs ⟨"GET", u⟩ (fun h => h1 h.2) (fun h => h2 h.2)
    (fun h => h3 h.2)]
  have hs : serveFile fs (cwd ++ "/static/" ++ u) = { status := 200, body := b } := by
    apply serveFile_ok
    rw [resolvePath_fallback cwd u rest hu hplain]
    exact hfile
  rw [hs]

/-- C4 witness: with a file at `/app/static/main.js`, `GET /main.js`
returns 200 and the file's bytes. -/
theorem c4_existing_file_200_witness :
    fsMain (resolvePath "/app" ++ ["static".data] ++ splitSlash "main.js".data)
        = .ok [99, 1] ∧
    handle "/app" fsMain ⟨"GET", "/main.js"⟩ =
      { response := some { status := 200, body := [99, 1] },
        reads := ["/app" ++ "/static/" ++ "/main.js"] } :=
  ⟨rfl, c4_existing_file_200 "/app" fsMain "/main.js" "main.js".data [99, 1]
    rfl (by decide) (by decide) (by decide) rfl⟩

/-- C6: for every working directory and filesystem holding a file with
body `b` at `static/index.html` under the resolved working directory,
`GET /` responds 200 with exactly `b`, reading exactly the root-document
path — whatever else the filesystem contains. -/
theorem c6_root_document_200 (cwd : String) (fs : FileSystem) (b : Bytes)
    (hfile : fs (resolvePath cwd ++ ["static".data, "index.html".data]) = .ok b) :
    handle cwd fs ⟨"GET", "/"⟩ =
      { response := some { status := 200, body := b },
        reads := [cwd ++ "/static/index.html"] } := by
  unfold handle
  rw [if_pos ⟨rfl, rfl⟩]
  have hs : serveFile fs (cwd ++ "/static/index.html") = { status := 200, body := b } := by
    apply serveFile_ok
    rw [resolvePath_index cwd]
    exact hfile
  rw [hs]

/-- C6 witness: with `/app/static/index.html` present, `GET /` serves it
with 200. -/
theorem c6_root_document_200_witness :
    fsIndexOnly (resolvePath "/app" ++ ["static".data, "index.html".data])
        = .ok [60, 104] ∧
    handle "/app" fsIndexOnly ⟨"GET", "/"⟩ =
      { response := some { status := 200, body := [60, 104] },
        reads := ["/app" ++ "/static/index.html"] } :=
  ⟨rfl, c6_root_document_200 "/app" fsIndexOnly [60, 104] rfl⟩

/-- C7 (as stated, refuted): a request matching none of the three
specific rules is not always answered 404/405 — `POST /index.html` with
the file present is served with status 200. -/
theorem c7_counterexample :
    (handle "/app" fsIndexOnly ⟨"POST", "/index.html"⟩).response
        = some { status := 200, body := [60, 104] } ∧
    Option.map Response.status
        ((handle "/app" fsIndexOnly ⟨"POST", "/index.html"⟩).response) ≠ some 404 ∧
    Option.map Response.status
        ((handle "/app" fsIndexOnly ⟨"POST", "/index.html"⟩).response) ≠ some 405 := by
  decide

/-- C7 (amended): a request whose method is not `GET` matches no specific
rule and falls through to the catch-all static-resolution rule, whatever
its method; a response is always produced (no crash), and when the
resolved file is absent it is a 404 — but never a 405. -/
theorem c7_unmatched_falls_through (cwd : String) (fs : FileSystem) (req : Request)
    (hm : req.method ≠ "GET") :
    (handle cwd fs req).response = some (serveFile fs (cwd ++ "/static/" ++ req.url)) ∧
    (fs (resolvePath (cwd ++ "/static/" ++ req.url)) = .error .notFound →
      (handle cwd fs req).response = some { status := 404, body := [] }) := by
  have hfall := handle_fallback cwd fs req (fun h => hm h.1) (fun h => hm h.1)
    (fun h => hm h.1)
  refine ⟨by rw [hfall], fun habs => ?_⟩
  rw [hfall]
  simp [serveFile_notFound fs _ habs]

/-- C7 witness: `POST /nope.txt` on an empty filesystem yields 404. -/
theorem c7_unmatched_falls_through_witness :
    ("POST" : String) ≠ "GET" ∧
    (handle "/app" fsAbsent ⟨"POST", "/nope.txt"⟩).response
      = some { status := 404, body := [] } :=
  ⟨by decide,
    (c7_unmatched_falls_through "/app" fsAbsent ⟨"POST", "/nope.txt"⟩ (by decide)).2 rfl⟩

/-- C10: every request reaching the fallback branch passes to the
file-serving action exactly the concatenation of the working directory,
the literal `/static/`, and the raw request URL — no normalization,
decoding or sanitization in between — and responds with `serveFile`'s
result on that very string. -/
theorem c10_fallback_raw_path (cwd : String) (fs : FileSystem) (req : Request)
    (h1 : ¬(req.method = "GET" ∧ req.url = "/"))
    (h2 : ¬(req.method = "GET" ∧ req.url = "/ws"))
    (h3 : ¬(req.method = "GET" ∧ req.url = "/favicon.ico")) :
    (handle cwd fs req).reads = [cwd ++ "/static/" ++ req.url] ∧
    (handle cwd fs req).response = some (serveFile fs (cwd ++ "/static/" ++ req.url)) := by
  rw [handle_fallback cwd fs req h1 h2 h3]
  exact ⟨rfl, rfl⟩

/-- C10 witness: a traversal URL is passed through verbatim. -/
theorem c10_fallback_raw_path_witness :
    ¬((("GET" : String) = "GET") ∧ (("/../x" : String) = "/")) ∧
    (handle "/app" fsAbsent ⟨"GET", "/../x"⟩).reads
      = ["/app" ++ "/static/" ++ "/../x"] :=
  ⟨by decide,
    (c10_fallback_raw_path "/app" fsAbsent ⟨"GET", "/../x"⟩
      (by decide) (by decide) (by decide)).1⟩

/-- C5 (as stated, refuted): not every request produces a response —
`GET /ws` matches the second rule, whose action responds nothing. -/
theorem c5_counterexample :
    (handle "/srv" fsAbsent ⟨"GET", "/ws"⟩).response = none ∧
    (handle "/srv" fsAbsent ⟨"GET", "/ws"⟩).reads = [] := by
  decide

/-- C5 (amended): for every request exactly one route rule's action
executes — the rule list decomposes around a matched rule, every rule
before it fails on the request, and the loop body's outcome is that
rule's action; since some actions respond nothing, at most (not exactly)
one response is produced. -/
theorem c5_first_match_wins (cwd : String) (fs : FileSystem) (req : Request) :
    ∃ pre rule post, routes = pre ++ rule :: post ∧ rule.1 req = true ∧
      (∀ r ∈ pre, r.1 req = false) ∧
      handle cwd fs req = rule.2 cwd fs req := by
  by_cases hm : req.method = "GET"
  · by_cases h1 : req.url = "/"
    · refine ⟨[], ruleRoot, [ruleWs, ruleFavicon, ruleFallback], rfl, ?_, by simp, ?_⟩
      · simp [ruleRoot, hm, h1]
      · unfold handle
        rw [if_pos ⟨hm, h1⟩]
        rfl
    · by_cases h2 : req.url = "/ws"
      · refine ⟨[ruleRoot], ruleWs, [ruleFavicon, ruleFallback], rfl, ?_, ?_, ?_⟩
        · simp [ruleWs, hm, h2]
        · intro r hr
          simp only [List.mem_singleton] at hr
          subst hr
          simp [ruleRoot, hm, beq_eq_false_iff_ne, h1]
        · unfold handle
          rw [if_neg (fun h => h1 h.2), if_pos ⟨hm, h2⟩]
          rfl
      · by_cases h3 : req.url = "/favicon.ico"
        · refine ⟨[ruleRoot, ruleWs], ruleFavicon, [ruleFallback], rfl, ?_, ?_, ?_⟩
          · simp [ruleFavicon, hm, h3]
          · intro r hr
            simp only [List.mem_cons, List.not_mem_nil, or_false] at hr
            rcases hr with rfl | rfl
            · simp [ruleRoot, hm, beq_eq_false_iff_ne, h1]
            · simp [ruleWs, hm, beq_eq_false_iff_ne, h2]
          · unfold handle
            rw [if_neg (fun h => h1 h.2), if_neg (fun h => h2 h.2), if_pos ⟨hm, h3⟩]
            rfl
        · refine ⟨[ruleRoot, ruleWs, ruleFavicon], ruleFallback, [], rfl, by simp [ruleFallback], ?_, ?_⟩
          · intro r hr
            simp only [List.mem_cons, List.not_mem_nil, or_false] at hr
            rcases hr with rfl | rfl | rfl
            · simp [ruleRoot, hm, beq_eq_false_iff_ne, h1]
            · simp [ruleWs, hm, beq_eq_false_iff_ne, h2]
            · simp [ruleFavicon, hm, beq_eq_false_iff_ne, h3]
          · rw [handle_fallback cwd fs req (fun h => h1 h.2) (fun h => h2 h.2)
              (fun h => h3 h.2)]
            rfl
  · refine ⟨[ruleRoot, ruleWs, ruleFavicon], ruleFallback, [], rfl, by simp [ruleFallback], ?_, ?_⟩
    · intro r hr
      simp only [List.mem_cons, List.not_mem_nil, or_false] at hr
      rcases hr with rfl | rfl | rfl
      · simp [ruleRoot, beq_eq_false_iff_ne, hm]
      · simp [ruleWs, beq_eq_false_iff_ne, hm]
      · simp [ruleFavicon, beq_eq_false_iff_ne, hm]
    · rw [handle_fallback cwd fs req (fun h => hm h.1) (fun h => hm h.1)
        (fun h => hm h.1)]
      rfl

/-- The request loop is a pure map of the loop body over the request
stream: no state crosses iterations. -/
lemma serverLoop_eq_map (cwd : String) (fs : FileSystem) (rs : List Request) :
    serverLoop cwd fs rs = rs.map (handle cwd fs) := by
  induction rs with
  | nil => rfl
  | cons r rest ih => simp [serverLoop, ih]

/-- C8: the outcome of the loop at position `i` is a function of the
request at position `i` alone — two request streams agreeing at `i`
yield the same outcome there, whatever the surrounding requests are and
however their handling fails. -/
theorem c8_request_independence (cwd : String) (fs : FileSystem)
    (rs₁ rs₂ : List Request) (i : Nat) (r : Request)
    (h₁ : rs₁[i]? = some r) (h₂ : rs₂[i]? = some r) :
    (serverLoop cwd fs rs₁)[i]? = some (handle cwd fs r) ∧
    (serverLoop cwd fs rs₁)[i]? = (serverLoop cwd fs rs₂)[i]? := by
  rw [serverLoop_eq_map, serverLoop_eq_map, List.getElem?_map, List.getElem?_map,
    h₁, h₂]
  exact ⟨rfl, rfl⟩

/-- C8 witness: the outcome of the second request is the same whether the
first request fails on a missing file or is a malformed `POST`. -/
theorem c8_request_independence_witness :
    ([⟨"GET", "/missing.txt"⟩, ⟨"GET", "/a.txt"⟩] : List Request)[1]?
        = some ⟨"GET", "/a.txt"⟩ ∧
    (serverLoop "/app" fsAbsent [⟨"GET", "/missing.txt"⟩, ⟨"GET", "/a.txt"⟩])[1]?
        = (serverLoop "/app" fsAbsent [⟨"POST", "/boom"⟩, ⟨"GET", "/a.txt"⟩])[1]? :=
  ⟨rfl, (c8_request_independence "/app" fsAbsent
    [⟨"GET", "/missing.txt"⟩, ⟨"GET", "/a.txt"⟩]
    [⟨"POST", "/boom"⟩, ⟨"GET", "/a.txt"⟩] 1 ⟨"GET", "/a.txt"⟩ rfl rfl).2⟩

end StaticServer
